import Mathlib

/-!
Verification of the search-query core of lutris (`lutris/search.py`):
tokenizer, component extractor, predicate compiler and the `GameSearch` /
`RunnerSearch` facades.  Strings are embedded as `List Char`; the Python
generator `tokenize_search` is embedded as a structural state machine with an
explicit in-quote mode for the inner quote-consuming loop.
-/

/-- Python `str.isspace` on a single character, restricted to the ASCII
whitespace characters that `str.isspace` recognizes. -/
def isSpaceChar (c : Char) : Bool :=
  c = ' ' || c = '\t' || c = '\n' || c = '\r' || c = Char.ofNat 11 || c = Char.ofNat 12

/-- Python `str.isspace` on a buffer: true iff the string is nonempty and all
of its characters are whitespace (`"".isspace()` is `False`). -/
def pyIsSpace (t : List Char) : Bool :=
  !t.isEmpty && t.all isSpaceChar

/-- Python `str.strip()`: remove leading and trailing whitespace. -/
def pyStrip (t : List Char) : List Char :=
  ((t.dropWhile isSpaceChar).reverse.dropWhile isSpaceChar).reverse

/-- Python `str.casefold`, embedded for the ASCII range as lowercasing. -/
def pyCasefold (t : List Char) : List Char :=
  t.map Char.toLower

/-- Prefix test: `startsWithL hay needle` is true iff `hay` starts with
`needle`. -/
def startsWithL : List Char → List Char → Bool
  | _, [] => true
  | [], _ :: _ => false
  | a :: as, b :: bs => a = b && startsWithL as bs

/-- Python substring test `needle in hay`: `containsSub hay needle`. -/
def containsSub : List Char → List Char → Bool
  | [], needle => needle.isEmpty
  | c :: t, needle => startsWithL (c :: t) needle || containsSub t needle

/-- Concatenation of a token list back into text. -/
def concatAll : List (List Char) → List Char
  | [] => []
  | t :: rest => t ++ concatAll rest

/-- The character loop of `tokenize_search` (`lutris/search.py:14-53`).
The second argument is true while the inner `while True` loop that consumes a
quoted span is running (its buffer then starts with `"`); the third argument
is the accumulating `buffer`.  At end of input the `finally:` clause yields
the current buffer, in both modes. -/
def tokenizeAux : List Char → Bool → List Char → List (List Char)
  | [], _, buf => [buf]
  | c :: rest, true, buf =>
    if c = '"' then (buf ++ [c]) :: tokenizeAux rest false []
    else tokenizeAux rest true (buf ++ [c])
  | c :: rest, false, buf =>
    if isSpaceChar c ≠ pyIsSpace buf then
      buf :: tokenizeAux rest false [c]
    else if c = '-' then
      buf :: [c] :: tokenizeAux rest false []
    else if c = ':' then
      (buf ++ [c]) :: tokenizeAux rest false []
    else if c = '"' then
      buf :: tokenizeAux rest true [c]
    else
      tokenizeAux rest false (buf ++ [c])

/-- Embedding of `tokenize_search` (`lutris/search.py:14-55`): run the character loop and
keep only the non-empty tokens. -/
def tokenize_search (text : List Char) : List (List Char) :=
  (tokenizeAux text false []).filter (fun t => !t.isEmpty)

/-- A window of the 3-token sliding buffer: `(prev_token, token, next_token)`. -/
abbrev TokenWindow := List Char × List Char × List Char

/-- The final `while buffer:` loop of `token_pairs`
(`lutris/search.py:88-90`): drain the remaining buffer, padding each window
with `""` up to three slots. -/
def tp_drain : List (List Char) → List TokenWindow
  | [] => []
  | t :: rest => (t, rest.getD 0 [], rest.getD 1 []) :: tp_drain rest

/-- The `for` loop of `token_pairs` (`lutris/search.py:78-90`): keep a buffer
of at most three tokens; once full, each incoming token yields the current
window and slides the buffer by one. -/
def tp_loop : List (List Char) → List (List Char) → List TokenWindow
  | buf, [] => tp_drain buf
  | buf, t :: rest =>
    if buf.length = 3 then
      (buf.getD 0 [], buf.getD 1 [], buf.getD 2 []) :: tp_loop (buf.drop 1 ++ [t]) rest
    else
      tp_loop (buf ++ [t]) rest

/-- Embedding of `token_pairs` of `BaseSearch.get_components` (`lutris/search.py:77-90`):
the buffer starts as `[""]`. -/
def token_pairs (toks : List (List Char)) : List TokenWindow :=
  tp_loop [[]] toks

/-- All sliding windows of width three over a list; `token_pairs` is proved
equal to `windows3` of the token list padded with a leading `""` and two
trailing `""`. -/
def windows3 {α : Type} : List α → List (α × α × α)
  | a :: b :: c :: rest => (a, b, c) :: windows3 (b :: c :: rest)
  | _ => []

/-- Embedding of `clean_token` (`lutris/search.py:92-98`): strip a leading quote, a
trailing quote only when one is present, and otherwise surrounding
whitespace. -/
def clean_token (to_clean : List Char) : List Char :=
  if to_clean.head? = some '"' then
    if to_clean.getLast? = some '"' then (to_clean.drop 1).dropLast
    else to_clean.drop 1
  else pyStrip to_clean

/-- One decoded query term: `(name, value, raw text, negated)`
(`lutris/search.py:76-123`). -/
structure SearchComponent where
  name : List Char
  value : List Char
  raw : List Char
  negated : Bool
deriving DecidableEq

/-- The window loop of `BaseSearch.get_components`
(`lutris/search.py:100-123`); the boolean argument is `skip_token`. -/
def get_components_from (tags : List (List Char)) :
    List TokenWindow → Bool → List SearchComponent
  | [], _ => []
  | (prev_token, token, next_token) :: rest, skip =>
    if skip then get_components_from tags rest false
    else
      let negated := prev_token = "-".data
      if token = "-".data then get_components_from tags rest false
      else if token.head? = some '"' then
        let unquoted := clean_token token
        ⟨[], unquoted, unquoted, negated⟩ :: get_components_from tags rest false
      else if token.getLast? = some ':' then
        let name := pyCasefold (pyStrip token.dropLast)
        if name ∈ tags then
          ⟨name, clean_token next_token, token, negated⟩ :: get_components_from tags rest true
        else
          ⟨[], token, token, negated⟩ :: get_components_from tags rest false
      else
        ⟨[], token, token, negated⟩ :: get_components_from tags rest false

/-- The non-whitespace tokens of a text (`if not t.isspace()` at
`lutris/search.py:80`). -/
def nonwsTokens (text : List Char) : List (List Char) :=
  (tokenize_search text).filter (fun t => !pyIsSpace t)

/-- The combined token filter of the component extractor: non-empty and not
whitespace-only. -/
def nwF (l : List (List Char)) : List (List Char) :=
  l.filter (fun t => !t.isEmpty && !pyIsSpace t)

/-- Embedding of `BaseSearch.get_components` (`lutris/search.py:76-123`). -/
def get_components (tags : List (List Char)) (text : List Char) : List SearchComponent :=
  get_components_from tags (token_pairs (nonwsTokens text)) false

/-- Embedding of `GameSearch.tags` (`lutris/search.py:176`). -/
def gameTags : List (List Char) :=
  ["installed".data, "hidden".data, "favorite".data, "categorized".data,
   "category".data, "runner".data, "platform".data]

/-- Embedding of `RunnerSearch.tags` (`lutris/search.py:282`). -/
def runnerTags : List (List Char) := ["installed".data]

/-- Modelled from the spec: `strip_accents` (from `lutris/util/strings.py`,
which is not under `src/`) strips diacritics from a string; the spec only
requires a character-level normalization applied to both the query fragment
and the candidate text, so it is modelled as mapping an arbitrary
character-to-character accent map over the string. -/
def strip_accents (m : Char → Char) (t : List Char) : List Char :=
  t.map m

/-- Embedding of `BaseSearch.get_text_predicate` (`lutris/search.py:165-172`):
diacritic-stripped, casefolded substring test of the query fragment against
the candidate's display text. -/
def get_text_predicate {α : Type} (m : Char → Char) (candidate_text : α → List Char)
    (text : List Char) : α → Bool :=
  let stripped := pyCasefold (strip_accents m text)
  fun candidate => containsSub (pyCasefold (strip_accents m (candidate_text candidate))) stripped

/-- A search object: the query `text` (immutable) plus the lazily compiled,
cached predicate list (`BaseSearch.__init__`, `lutris/search.py:62-64`). -/
structure BSearch (α : Type) where
  text : List Char
  predicates : Option (List (α → Bool))

/-- Embedding of `BaseSearch.get_predicates` (`lutris/search.py:131-146`), with the cache
mutation made explicit: returns the predicate list together with the search
object after the call (its cache now populated).  `compile` stands for the
loop body compiling the components of a non-empty text. -/
def BaseSearch.get_predicates {α : Type} (compile : List Char → List (α → Bool))
    (search : BSearch α) : List (α → Bool) × BSearch α :=
  match search.predicates with
  | some ps => (ps, search)
  | none =>
    let ps := if search.text = [] then [] else compile search.text
    (ps, ⟨search.text, some ps⟩)

/-- Embedding of `BaseSearch.matches` (`lutris/search.py:158-163`): conjunction of all
compiled predicates. -/
def BaseSearch.matches {α : Type} (compile : List Char → List (α → Bool))
    (search : BSearch α) (candidate : α) : Bool :=
  ((BaseSearch.get_predicates compile search).1).all (fun p => p candidate)

/-- Embedding of `BaseSearch.with_predicate` (`lutris/search.py:148-153`): force and copy
the predicate list, append the extra predicate, and return a shallow copy
carrying the extended list.  The first component is the new search value, the
second is the original object after the call (only its cache populated). -/
def BaseSearch.with_predicate {α : Type} (compile : List Char → List (α → Bool))
    (search : BSearch α) (predicate : α → Bool) : BSearch α × BSearch α :=
  let forced := BaseSearch.get_predicates compile search
  (⟨forced.2.text, some (forced.1 ++ [predicate])⟩, forced.2)

/-- Embedding of `BaseSearch.flag_texts` (`lutris/search.py:59`) as a lookup:
`some flag` when the value is a recognized flag word (`some true/false` for
the boolean words, `none` for `maybe`), `none` when unrecognized. -/
def flag_texts (v : List Char) : Option (Option Bool) :=
  if v = "true".data then some (some true)
  else if v = "yes".data then some (some true)
  else if v = "false".data then some (some false)
  else if v = "no".data then some (some false)
  else if v = "maybe".data then some none
  else none

/-- A game row as consumed by `GameSearch`: the fields of `db_game` that the
predicates read. -/
structure DBGame where
  name : List Char
  installed : Bool
  id : Nat
  appid : Option (List Char)
  runner : Option (List Char)
  platform : Option (List Char)

/-- The service collaborator of `GameSearch`: the installed app-ids reported
by `games.get_service_games(service.id)` and the platform list reported by
`service.get_game_platforms(db_game)`. -/
structure GameService where
  installed_appids : List (List Char)
  game_platforms : DBGame → List (List Char)

/-- The collaborators injected into `GameSearch`: the accent map of
`strip_accents`, the optional service, and the category store
(`get_uncategorized_game_ids`, `normalized_category_names`,
`get_game_ids_for_categories`). -/
structure GameCollab where
  accent_map : Char → Char
  service : Option GameService
  uncategorized_game_ids : List Nat
  normalized_category_names : List Char → List (List Char)
  get_game_ids_for_categories : List (List Char) → List Nat

/-- Embedding of `GameSearch.get_candidate_text` (`lutris/search.py:182-183`). -/
def GameSearch.get_candidate_text (g : DBGame) : List Char :=
  g.name

/-- Embedding of `GameSearch._is_installed` (`lutris/search.py:229-234`). -/
def GameSearch.is_installed (col : GameCollab) (g : DBGame) : Bool :=
  match col.service with
  | some sv =>
    match g.appid with
    | some a => !a.isEmpty && a ∈ sv.installed_appids
    | none => false
  | none => g.installed

/-- Embedding of `GameSearch.get_installed_predicate` (`lutris/search.py:222-227`). -/
def GameSearch.get_installed_predicate (col : GameCollab) (installed : Bool) :
    DBGame → Bool :=
  fun g => installed = GameSearch.is_installed col g

/-- Embedding of `GameSearch.get_categorized_predicate` (`lutris/search.py:236-244`). -/
def GameSearch.get_categorized_predicate (col : GameCollab) (categorized : Bool) :
    DBGame → Bool :=
  let uncategorized_ids := col.uncategorized_game_ids
  fun g => (!uncategorized_ids.contains g.id) = categorized

/-- Embedding of `GameSearch.get_category_predicate` (`lutris/search.py:246-255`). -/
def GameSearch.get_category_predicate (col : GameCollab) (category : List Char)
    (in_category : Bool) : DBGame → Bool :=
  let names := col.normalized_category_names category
  let category_game_ids := col.get_game_ids_for_categories names
  fun g => category_game_ids.contains g.id = in_category

/-- Embedding of `GameSearch.get_runner_predicate` (`lutris/search.py:257-264`): Python
truthiness of `game_runner and game_runner.casefold() == runner_name`. -/
def GameSearch.get_runner_predicate (runner_name : List Char) : DBGame → Bool :=
  let folded := pyCasefold runner_name
  fun g =>
    match g.runner with
    | some r => !r.isEmpty && pyCasefold r = folded
    | none => false

/-- Embedding of `GameSearch.get_platform_predicate` (`lutris/search.py:266-278`). -/
def GameSearch.get_platform_predicate (col : GameCollab) (platform : List Char) :
    DBGame → Bool :=
  let folded := pyCasefold platform
  fun g =>
    let from_service : Bool :=
      match col.service with
      | some sv => ((sv.game_platforms g).map pyCasefold).contains folded
      | none => false
    match g.platform with
    | some p => if !p.isEmpty then pyCasefold p = folded else from_service
    | none => from_service

/-- The tail of `GameSearch.get_part_predicate` after the tri-state flag
block (`lutris/search.py:208-220`): the `category`, `runner` and `platform`
branches, ending in `super().get_part_predicate` which returns `None`. -/
def GameSearch.tag_part_predicate (col : GameCollab) (name value : List Char) :
    Option (DBGame → Bool) :=
  if name = "category".data then
    some (GameSearch.get_category_predicate col (pyStrip value) true)
  else if name = "runner".data then
    some (GameSearch.get_runner_predicate (pyStrip value))
  else if name = "platform".data then
    some (GameSearch.get_platform_predicate col (pyStrip value))
  else none

/-- Embedding of `GameSearch.get_part_predicate` (`lutris/search.py:185-220`): the value
is casefolded, a `maybe` flag short-circuits to the always-true predicate for
every tag name, boolean flags feed the four tri-state tags, and control then
falls through to the `category`/`runner`/`platform` branches. -/
def GameSearch.get_part_predicate (col : GameCollab) (name value : List Char) :
    Option (DBGame → Bool) :=
  let folded_value := pyCasefold value
  match flag_texts folded_value with
  | some flag =>
    match flag with
    | none => some (fun _ => true)
    | some b =>
      if name = "installed".data then some (GameSearch.get_installed_predicate col b)
      else if name = "hidden".data then
        some (GameSearch.get_category_predicate col (".hidden".data) b)
      else if name = "favorite".data then
        some (GameSearch.get_category_predicate col ("favorite".data) b)
      else if name = "categorized".data then
        some (GameSearch.get_categorized_predicate col b)
      else GameSearch.tag_part_predicate col name value
  | none => GameSearch.tag_part_predicate col name value

/-- The loop body of `BaseSearch.get_predicates` (`lutris/search.py:135-144`)
for one component, specialized to a part-predicate dispatch and a candidate
text accessor: tag dispatch with substring fallback on the raw text, then
negation wrapping. -/
def compile_component {α : Type} (m : Char → Char)
    (part_predicate : List Char → List Char → Option (α → Bool))
    (candidate_text : α → List Char) (comp : SearchComponent) : α → Bool :=
  let predicate :=
    if !comp.name.isEmpty then
      match part_predicate comp.name comp.value with
      | some p => p
      | none => get_text_predicate m candidate_text comp.raw
    else get_text_predicate m candidate_text comp.raw
  if comp.negated then fun c => !predicate c else predicate

/-- The component compilation loop of `GameSearch` queries
(`lutris/search.py:131-146` with the `GameSearch` overrides). -/
def GameSearch.compile (col : GameCollab) (text : List Char) : List (DBGame → Bool) :=
  (get_components gameTags text).map
    (compile_component col.accent_map (GameSearch.get_part_predicate col)
      GameSearch.get_candidate_text)

/-- Embedding of `GameSearch(text).matches(candidate)` for a freshly constructed search. -/
def GameSearch.matches (col : GameCollab) (text : List Char) (g : DBGame) : Bool :=
  BaseSearch.matches (GameSearch.compile col) ⟨text, none⟩ g

/-- A runner plugin as consumed by `RunnerSearch`: `name`, `description` and
the `is_installed()` collaborator capability. -/
structure RunnerModel where
  name : List Char
  description : List Char
  installed : Bool

/-- Embedding of `RunnerSearch.get_candidate_text` (`lutris/search.py:284-285`): name and
description joined by a newline. -/
def RunnerSearch.get_candidate_text (r : RunnerModel) : List Char :=
  r.name ++ '\n' :: r.description

/-- Embedding of `RunnerSearch.get_installed_predicate` (`lutris/search.py:298-303`). -/
def RunnerSearch.get_installed_predicate (installed : Bool) : RunnerModel → Bool :=
  fun r => installed = r.installed

/-- Embedding of `RunnerSearch.get_part_predicate` (`lutris/search.py:287-296`): note the
value is looked up in `flag_texts` without casefolding. -/
def RunnerSearch.get_part_predicate (name value : List Char) :
    Option (RunnerModel → Bool) :=
  match flag_texts value with
  | some flag =>
    if name = "installed".data then
      match flag with
      | none => some (fun _ => true)
      | some b => some (RunnerSearch.get_installed_predicate b)
    else none
  | none => none

/-- The component compilation loop of `RunnerSearch` queries. -/
def RunnerSearch.compile (m : Char → Char) (text : List Char) : List (RunnerModel → Bool) :=
  (get_components runnerTags text).map
    (compile_component m (fun name value => RunnerSearch.get_part_predicate name value)
      RunnerSearch.get_candidate_text)

/-- Embedding of `RunnerSearch(text).matches(candidate)` for a freshly constructed search. -/
def RunnerSearch.matches (m : Char → Char) (text : List Char) (r : RunnerModel) : Bool :=
  BaseSearch.matches (RunnerSearch.compile m) ⟨text, none⟩ r

/-- Concrete collaborators for witnesses: identity accent map, no service,
and an empty category store. -/
def col0 : GameCollab :=
  ⟨id, none, [], fun _ => [], fun _ => []⟩

/-- A game row named `b-a`. -/
def gBA : DBGame := ⟨"b-a".data, false, 1, none, none, none⟩

/-- A game row named `installed:`. -/
def gInst : DBGame := ⟨"installed:".data, false, 2, none, none, none⟩

/-- A game row named `bar foo:`. -/
def gBarFoo : DBGame := ⟨"bar foo:".data, false, 3, none, none, none⟩

/-- A game row named `castle`. -/
def gCastle : DBGame := ⟨"castle".data, true, 4, none, none, none⟩

/-! Shared helper lemmas. -/

/-- The empty fragment is a substring of every text. -/
theorem containsSub_nil (hay : List Char) : containsSub hay [] = true := by
  cases hay <;> simp [containsSub, startsWithL, List.isEmpty]

/-- Embedding of `matches` on a freshly constructed search object compiles the text unless
it is empty. -/
theorem matches_fresh {α : Type} (compile : List Char → List (α → Bool))
    (text : List Char) (c : α) :
    BaseSearch.matches compile ⟨text, none⟩ c
      = if text = [] then true else (compile text).all (fun p => p c) := by
  simp only [BaseSearch.matches, BaseSearch.get_predicates]
  split <;> simp

/-- Embedding of `GameSearch.matches` unfolded to the component compilation. -/
theorem gameMatches_eq (col : GameCollab) (text : List Char) (g : DBGame) :
    GameSearch.matches col text g
      = if text = [] then true else (GameSearch.compile col text).all (fun p => p g) := by
  simp only [GameSearch.matches]
  exact matches_fresh _ text g

/-- Dropping empty tokens does not change the concatenation. -/
theorem concatAll_filter_nonempty : ∀ l : List (List Char),
    concatAll (l.filter (fun t => !t.isEmpty)) = concatAll l
  | [] => rfl
  | t :: rest => by
    rw [List.filter_cons]
    cases t with
    | nil => simpa [concatAll] using concatAll_filter_nonempty rest
    | cons c cs => simp [concatAll, concatAll_filter_nonempty rest]

/-- The tokenizer loop preserves every character: concatenating its output
yields the pending buffer followed by the remaining input. -/
theorem tokenizeAux_concat : ∀ (cs : List Char) (q : Bool) (buf : List Char),
    concatAll (tokenizeAux cs q buf) = buf ++ cs
  | [], q, buf => by cases q <;> simp [tokenizeAux, concatAll]
  | c :: rest, true, buf => by
    by_cases h : c = '"'
    · subst h
      simp [tokenizeAux, concatAll, tokenizeAux_concat rest false []]
    · simp [tokenizeAux, h, tokenizeAux_concat rest true (buf ++ [c])]
  | c :: rest, false, buf => by
    simp only [tokenizeAux]
    split_ifs with h1 h2 h3 h4
    · simp [concatAll, tokenizeAux_concat rest false [c]]
    · subst h2
      simp [concatAll, tokenizeAux_concat rest false []]
    · subst h3
      simp [concatAll, tokenizeAux_concat rest false []]
    · subst h4
      simp [concatAll, tokenizeAux_concat rest true ['"']]
    · simp [tokenizeAux_concat rest false (buf ++ [c])]

/-! Claim C7. -/

/-- C7: for every input text, concatenating in order all tokens produced by
`tokenize_search` (whitespace tokens included) reproduces the original text
exactly — no character is dropped, duplicated, or reordered. -/
theorem tokenize_search_concat (text : List Char) :
    concatAll (tokenize_search text) = text := by
  rw [tokenize_search, concatAll_filter_nonempty, tokenizeAux_concat]
  rfl

/-! Claim C8. -/

/-- C8: for every search object `s`, predicate `p` and candidate `c`,
`s.with_predicate(p).matches(c)` equals `s.matches(c) and p(c)`; the new
search value carries the copied predicate list with `p` appended, and the
original search object's compiled predicate list is unchanged by the call. -/
theorem with_predicate_composes {α : Type} (compile : List Char → List (α → Bool))
    (s : BSearch α) (p : α → Bool) (c : α) :
    BaseSearch.matches compile (BaseSearch.with_predicate compile s p).1 c
        = (BaseSearch.matches compile s c && p c)
    ∧ (BaseSearch.with_predicate compile s p).1.predicates
        = some ((BaseSearch.get_predicates compile s).1 ++ [p])
    ∧ (BaseSearch.get_predicates compile
          (BaseSearch.with_predicate compile s p).2).1
        = (BaseSearch.get_predicates compile s).1 := by
  obtain ⟨text, ps⟩ := s
  cases ps <;>
    simp [BaseSearch.matches, BaseSearch.with_predicate, BaseSearch.get_predicates,
      List.all_append]

/-! Claim C1. -/

/-- C1 counterexample: in `"a -b"` the `-` follows whitespace, so it is not
emitted as its own singleton token; the tokens are `"a"`, `" "`, `"-b"` and
neither `"-"` nor `"b"` occurs as a token. -/
theorem dash_after_space_cex :
    tokenize_search ("a -b".data) = ["a".data, " ".data, "-b".data]
    ∧ ("-".data) ∉ tokenize_search ("a -b".data)
    ∧ ("b".data) ∉ tokenize_search ("a -b".data) := by decide

/-- C1 amended: a `-` read outside a quoted span is emitted as its own
singleton token only when the whitespace-kind of the current buffer already
matches (as at the start of the input or directly after word characters);
when it directly follows whitespace the `-` instead starts the new buffer and
merges with the following word characters, so `"a-b"` tokenizes to
`"a"`, `"-"`, `"b"` while `"a -b"` tokenizes to `"a"`, `" "`, `"-b"`. -/
theorem dash_singleton_iff_buffer_kind_matches (rest buf : List Char) :
    (tokenizeAux ('-' :: rest) false buf =
      if pyIsSpace buf then buf :: tokenizeAux rest false ['-']
      else buf :: ['-'] :: tokenizeAux rest false [])
    ∧ tokenize_search ("a-b".data) = ["a".data, "-".data, "b".data]
    ∧ tokenize_search ("a -b".data) = ["a".data, " ".data, "-b".data] := by
  refine ⟨?_, by decide, by decide⟩
  simp only [tokenizeAux]
  have hsp : isSpaceChar '-' = false := rfl
  cases hb : pyIsSpace buf <;> simp [hsp, hb]

/-! Claim C3. -/

/-- C3 counterexample: in `a "b c"` the opening quote directly follows
whitespace, so no quoted span is consumed; the span `"b c"` is not a token. -/
theorem quote_after_space_cex :
    tokenize_search ("a \"b c\"".data)
      = ["a".data, " ".data, "\"b".data, " ".data, "c".data, "\"".data]
    ∧ ("\"b c\"".data) ∉ tokenize_search ("a \"b c\"".data) := by decide

/-- Inside the quote-consuming inner loop, the tokenizer accumulates every
character up to and including the next `"` into one token (or all remaining
characters if the input ends first). -/
theorem tokenizeAux_quote_mode : ∀ (rest acc : List Char),
    tokenizeAux rest true acc =
      if '"' ∈ rest then
        (acc ++ rest.takeWhile (fun c => c ≠ '"') ++ ['"'])
          :: tokenizeAux ((rest.dropWhile (fun c => c ≠ '"')).drop 1) false []
      else [acc ++ rest]
  | [], acc => by simp [tokenizeAux]
  | c :: rest, acc => by
    by_cases h : c = '"'
    · subst h
      simp [tokenizeAux, List.takeWhile_cons, List.dropWhile_cons]
    · rw [show tokenizeAux (c :: rest) true acc = tokenizeAux rest true (acc ++ [c]) from by
        simp [tokenizeAux, h]]
      rw [tokenizeAux_quote_mode rest (acc ++ [c])]
      by_cases hq : '"' ∈ rest
      · rw [if_pos hq, if_pos (by simp [hq])]
        simp [List.takeWhile_cons, List.dropWhile_cons, h]
      · rw [if_neg hq, if_neg (by simp [hq, Ne.symm h])]
        simp

/-- C3 amended: a double-quote encountered outside a quoted span starts an
indivisible quoted-span token (up to and including the next `"`, or to the
end of input if none follows) only when the whitespace-kind of the current
buffer matches; directly after whitespace the quote is treated as an
ordinary character instead. -/
theorem quote_span_one_token (rest buf : List Char) (h : pyIsSpace buf = false) :
    tokenizeAux ('"' :: rest) false buf =
      buf :: (if '"' ∈ rest then
        ('"' :: rest.takeWhile (fun c => c ≠ '"') ++ ['"'])
          :: tokenizeAux ((rest.dropWhile (fun c => c ≠ '"')).drop 1) false []
      else ['"' :: rest]) := by
  have hsp : isSpaceChar '"' = false := rfl
  rw [show tokenizeAux ('"' :: rest) false buf = buf :: tokenizeAux rest true ['"'] from by
    simp [tokenizeAux, hsp, h]]
  rw [tokenizeAux_quote_mode rest ['"']]
  split_ifs <;> simp

/-! Claim C2. -/

theorem filter_filter_comb {α : Type} (p q : α → Bool) : ∀ l : List α,
    (l.filter p).filter q = l.filter (fun a => p a && q a)
  | [] => rfl
  | a :: l => by
    by_cases hp : p a <;> by_cases hq : q a <;>
      simp [List.filter_cons, hp, hq, filter_filter_comb p q l]

theorem nonwsTokens_eq_nwF (text : List Char) :
    nonwsTokens text = nwF (tokenizeAux text false []) := by
  unfold nonwsTokens tokenize_search nwF
  rw [filter_filter_comb]

theorem nwF_cons (t : List Char) (l : List (List Char)) :
    nwF (t :: l) = if (!t.isEmpty && !pyIsSpace t) = true then t :: nwF l else nwF l := by
  simp [nwF, List.filter_cons]

/-- Appending one whitespace character to a text with no double-quote does
not change the non-whitespace tokens. -/
theorem trailing_space_nwF : ∀ (cs : List Char) (w : Char) (buf : List Char),
    '"' ∉ cs → isSpaceChar w = true →
    nwF (tokenizeAux (cs ++ [w]) false buf) = nwF (tokenizeAux cs false buf)
  | [], w, buf => fun _ hw => by
    have h2 : w ≠ '-' := by rintro rfl; exact absurd hw (by decide)
    have h3 : w ≠ ':' := by rintro rfl; exact absurd hw (by decide)
    have h4 : w ≠ '"' := by rintro rfl; exact absurd hw (by decide)
    simp only [List.nil_append]
    cases hb : pyIsSpace buf with
    | false =>
      rw [show tokenizeAux [w] false buf = buf :: tokenizeAux [] false [w] from by
        simp [tokenizeAux, hw, hb]]
      simp [tokenizeAux, nwF, List.filter_cons, pyIsSpace, hw]
    | true =>
      have hb' := hb
      simp only [pyIsSpace, Bool.and_eq_true, Bool.not_eq_true'] at hb'
      rw [show tokenizeAux [w] false buf = tokenizeAux [] false (buf ++ [w]) from by
        simp [tokenizeAux, hw, hb, h2, h3, h4]]
      have hsp : pyIsSpace (buf ++ [w]) = true := by
        simp [pyIsSpace, List.all_append, hb'.1, hb'.2, hw]
      simp [tokenizeAux, nwF, List.filter_cons, hb, hsp]
  | c :: cs, w, buf => fun hq hw => by
    have hcs : '"' ∉ cs := fun m => hq (List.mem_cons_of_mem _ m)
    simp only [List.cons_append, tokenizeAux]
    split_ifs with h1 h2 h3 h4
    · simp only [List.append_eq, nwF_cons, trailing_space_nwF cs w [c] hcs hw]
    · simp only [List.append_eq, nwF_cons, trailing_space_nwF cs w [] hcs hw]
    · simp only [List.append_eq, nwF_cons, trailing_space_nwF cs w [] hcs hw]
    · rw [h4] at hq
      exact absurd (List.mem_cons_self _ _) hq
    · simpa only [List.append_eq] using trailing_space_nwF cs w (buf ++ [c]) hcs hw

/-- Appending trailing whitespace to a text with no double-quote does not
change the non-whitespace tokens. -/
theorem trailing_ws_nonwsTokens (text ws : List Char)
    (hq : '"' ∉ text) (hws : ∀ w ∈ ws, isSpaceChar w = true) :
    nonwsTokens (text ++ ws) = nonwsTokens text := by
  rw [nonwsTokens_eq_nwF, nonwsTokens_eq_nwF]
  induction ws using List.reverseRecOn with
  | nil => simp
  | append_singleton l a ih =>
    have hl : ∀ w ∈ l, isSpaceChar w = true := fun w m => hws w (by simp [m])
    have ha : isSpaceChar a = true := hws a (by simp)
    have hql : '"' ∉ text ++ l := by
      intro m
      rcases List.mem_append.1 m with m | m
      · exact hq m
      · exact absurd (hl _ m) (by decide)
    rw [show text ++ (l ++ [a]) = (text ++ l) ++ [a] from (List.append_assoc ..).symm]
    rw [trailing_space_nwF (text ++ l) a [] hql ha]
    exact ih hl

/-- Two texts with the same non-whitespace tokens match the same
candidates. -/
theorem gameMatches_congr_nonws (col : GameCollab) (t1 t2 : List Char)
    (h : nonwsTokens t1 = nonwsTokens t2) (g : DBGame) :
    GameSearch.matches col t1 g = GameSearch.matches col t2 g := by
  have empty_all : ∀ t : List Char, nonwsTokens t = [] →
      (GameSearch.compile col t).all (fun p => p g) = true := by
    intro t hn
    have hcomp : get_components gameTags t = [⟨[], [], [], false⟩] := by
      unfold get_components
      rw [hn]
      rfl
    simp [GameSearch.compile, hcomp, compile_component, get_text_predicate,
      strip_accents, pyCasefold, containsSub_nil]
  rw [gameMatches_eq, gameMatches_eq]
  by_cases h1 : t1 = [] <;> by_cases h2 : t2 = []
  · simp [h1, h2]
  · rw [if_pos h1, if_neg h2]
    subst h1
    exact (empty_all t2 (by rw [← h]; rfl)).symm
  · rw [if_neg h1, if_pos h2]
    subst h2
    exact empty_all t1 (by rw [h]; rfl)
  · rw [if_neg h1, if_neg h2]
    unfold GameSearch.compile get_components
    rw [h]

/-- C2 counterexample: `GameSearch("-a")` and `GameSearch(" -a")` do not
match the same candidates — against the game named `b-a` the first query
(negated substring `a`) fails while the second (substring `-a`) succeeds. -/
theorem leading_space_changes_matches_cex :
    GameSearch.matches col0 ("-a".data) gBA = false
    ∧ GameSearch.matches col0 (" -a".data) gBA = true := by decide

/-- C2 amended: for query texts containing no double-quote character,
`GameSearch(text).matches(candidate)` is unchanged when trailing whitespace
is added to or removed from `text`; invariance under leading whitespace
fails in general (`GameSearch("-a")` and `GameSearch(" -a")` differ). -/
theorem matches_trailing_whitespace_invariant (col : GameCollab) (text ws : List Char)
    (g : DBGame) (hq : '"' ∉ text) (hws : ∀ w ∈ ws, isSpaceChar w = true) :
    GameSearch.matches col (text ++ ws) g = GameSearch.matches col text g :=
  gameMatches_congr_nonws col _ _ (trailing_ws_nonwsTokens text ws hq hws) g

/-- Witness for the amended C2 at a concrete input. -/
theorem matches_trailing_whitespace_invariant_witness :
    ('"' ∉ "ab".data) ∧ (∀ w ∈ [' '], isSpaceChar w = true)
    ∧ GameSearch.matches col0 ("ab".data ++ [' ']) gCastle
        = GameSearch.matches col0 ("ab".data) gCastle :=
  ⟨by decide, by decide,
    matches_trailing_whitespace_invariant col0 ("ab".data) [' '] gCastle
      (by decide) (by decide)⟩

/-! Claim C4 and C5. -/

theorem installed_label_nonempty : ("installed".data).isEmpty = false := by decide

/-- C4 counterexample: against the game named `installed:` the query
`installed:maybe2` matches even though `installed:maybe2` is not a substring
of the candidate name — the compiled fallback searches only for the label
`installed:`, not for `installed:maybe2`. -/
theorem unknown_flag_value_cex :
    GameSearch.matches col0 ("installed:maybe2".data) gInst = true
    ∧ containsSub (pyCasefold (strip_accents col0.accent_map gInst.name))
        (pyCasefold (strip_accents col0.accent_map ("installed:maybe2".data))) = false := by
  decide

/-- C4 amended: for a recognized tag whose value is not a recognized flag
word and not handled by a tag-specific branch (e.g. `installed:maybe2`), the
compiled predicate is the generic substring match over the component's raw
text, which is the label token `installed:` alone — the colon is preserved
but the value is dropped, so `GameSearch("installed:maybe2").matches(c)` is
true iff the normalized candidate name contains the normalized substring
`installed:`. -/
theorem unknown_flag_value_uses_label_raw (col : GameCollab) (g : DBGame) :
    GameSearch.matches col ("installed:maybe2".data) g
      = containsSub (pyCasefold (strip_accents col.accent_map g.name))
          (pyCasefold (strip_accents col.accent_map ("installed:".data))) := by
  have hc : get_components gameTags ("installed:maybe2".data)
      = [⟨"installed".data, "maybe2".data, "installed:".data, false⟩,
         ⟨[], [], [], false⟩] := by decide
  have hp : GameSearch.get_part_predicate col ("installed".data) ("maybe2".data) = none := rfl
  rw [gameMatches_eq, if_neg (by decide)]
  simp [GameSearch.compile, hc, compile_component, hp, installed_label_nonempty,
    get_text_predicate, GameSearch.get_candidate_text, containsSub_nil,
    strip_accents, pyCasefold]

/-- C5 counterexample: against the game named `bar foo:` the query `foo:bar`
matches even though `foo:bar` is not a substring of the candidate name — the
unknown tag produces two separate substring components, not one. -/
theorem unknown_tag_cex :
    GameSearch.matches col0 ("foo:bar".data) gBarFoo = true
    ∧ containsSub (pyCasefold (strip_accents col0.accent_map gBarFoo.name))
        (pyCasefold (strip_accents col0.accent_map ("foo:bar".data))) = false := by decide

/-- C5 amended: an unknown tag `foo:bar` on a GameSearch degrades gracefully
(no error, no crash) to two conjoined literal substring searches — one for
the label text `foo:` (colon preserved) and one for the value text `bar` —
because the `:` tokenizer rule splits the text into the tokens `foo:` and
`bar` and the unrecognized label falls through to the untagged case. -/
theorem unknown_tag_two_substring_components (col : GameCollab) (g : DBGame) :
    GameSearch.matches col ("foo:bar".data) g
      = (containsSub (pyCasefold (strip_accents col.accent_map g.name))
           (pyCasefold (strip_accents col.accent_map ("foo:".data)))
         && containsSub (pyCasefold (strip_accents col.accent_map g.name))
             (pyCasefold (strip_accents col.accent_map ("bar".data)))) := by
  have hc : get_components gameTags ("foo:bar".data)
      = [⟨[], "foo:".data, "foo:".data, false⟩, ⟨[], "bar".data, "bar".data, false⟩,
         ⟨[], [], [], false⟩] := by decide
  rw [gameMatches_eq, if_neg (by decide)]
  simp [GameSearch.compile, hc, compile_component, get_text_predicate,
    GameSearch.get_candidate_text, containsSub_nil, strip_accents, pyCasefold]

/-! Claim C6. -/

theorem flag_texts_some_none_eq (v : List Char) (h : flag_texts v = some none) :
    v = "maybe".data := by
  unfold flag_texts at h
  split_ifs at h <;> simp_all

/-- C6 counterexample: `category:maybe` compiles to the always-true
predicate (the tri-state `maybe` branch fires before the `category` branch),
not to the membership predicate for a category named `maybe`, which here
rejects the candidate. -/
theorem category_maybe_always_true_cex :
    (GameSearch.get_part_predicate col0 ("category".data) ("maybe".data)).map
        (fun p => p gCastle) = some true
    ∧ GameSearch.get_category_predicate col0 ("maybe".data) true gCastle = false := by decide

/-- C6 amended: for every value string `v` that does not casefold to the
tri-state flag word `maybe`, the GameSearch tag term `category:v` compiles
to the category-membership predicate for the literal (whitespace-stripped)
category string `v` resolved via the category-store collaborators; when `v`
casefolds to `maybe` the tri-state flag branch fires first and the term
compiles to the always-true predicate instead. -/
theorem category_value_literal_predicate (col : GameCollab) (v : List Char)
    (h : pyCasefold v ≠ "maybe".data) :
    GameSearch.get_part_predicate col ("category".data) v
      = some (GameSearch.get_category_predicate col (pyStrip v) true) := by
  cases hft : flag_texts (pyCasefold v) with
  | none =>
    simp only [GameSearch.get_part_predicate, hft]
    rfl
  | some flag =>
    cases flag with
    | none => exact absurd (flag_texts_some_none_eq _ hft) h
    | some b =>
      simp only [GameSearch.get_part_predicate, hft]
      rfl

/-- Witness for the amended C6 at a concrete input. -/
theorem category_value_literal_predicate_witness :
    pyCasefold ("Arcade".data) ≠ "maybe".data
    ∧ GameSearch.get_part_predicate col0 ("category".data) ("Arcade".data)
        = some (GameSearch.get_category_predicate col0 (pyStrip ("Arcade".data)) true) :=
  ⟨by decide, category_value_literal_predicate col0 ("Arcade".data) (by decide)⟩

/-! Claim C10. -/

theorem flag_texts_isSome_iff (v : List Char) :
    (flag_texts v).isSome
      = decide (v ∈ ["true".data, "yes".data, "false".data, "no".data, "maybe".data]) := by
  unfold flag_texts
  split_ifs with h1 h2 h3 h4 h5 <;> simp_all

/-- C10: RunnerSearch flag values are matched case-sensitively, unlike
GameSearch which casefolds the value first:
`RunnerSearch.get_part_predicate("installed", v)` yields a predicate exactly
when `v` is one of the lowercase flag words `true/yes/false/no/maybe`; for
any other casing such as `YES` it returns `None` (while GameSearch does
recognize `YES`), so the query `installed:YES` falls back to the generic
substring match over the raw label text. -/
theorem runner_flag_words_case_sensitive :
    (∀ v : List Char, (RunnerSearch.get_part_predicate ("installed".data) v).isSome
        = decide (v ∈ ["true".data, "yes".data, "false".data, "no".data, "maybe".data]))
    ∧ RunnerSearch.get_part_predicate ("installed".data) ("YES".data) = none
    ∧ RunnerSearch.get_part_predicate ("installed".data) ("maybe".data)
        = some (fun _ => true)
    ∧ RunnerSearch.get_part_predicate ("installed".data) ("yes".data)
        = some (RunnerSearch.get_installed_predicate true)
    ∧ RunnerSearch.get_part_predicate ("installed".data) ("no".data)
        = some (RunnerSearch.get_installed_predicate false)
    ∧ (∀ col : GameCollab,
        (GameSearch.get_part_predicate col ("installed".data) ("YES".data)).isSome = true)
    ∧ (∀ (m : Char → Char) (r : RunnerModel),
        RunnerSearch.matches m ("installed:YES".data) r
          = containsSub (pyCasefold (strip_accents m (RunnerSearch.get_candidate_text r)))
              (pyCasefold (strip_accents m ("installed:".data)))) := by
  refine ⟨?_, rfl, rfl, rfl, rfl, fun col => rfl, ?_⟩
  · intro v
    rw [← flag_texts_isSome_iff]
    cases hft : flag_texts v with
    | none => simp [RunnerSearch.get_part_predicate, hft]
    | some flag => cases flag <;> simp [RunnerSearch.get_part_predicate, hft]
  · intro m r
    have hc : get_components runnerTags ("installed:YES".data)
        = [⟨"installed".data, "YES".data, "installed:".data, false⟩,
           ⟨[], [], [], false⟩] := by decide
    have hp : RunnerSearch.get_part_predicate ("installed".data) ("YES".data) = none := rfl
    simp only [RunnerSearch.matches]
    rw [matches_fresh, if_neg (by decide)]
    simp [RunnerSearch.compile, hc, compile_component, hp, installed_label_nonempty,
      get_text_predicate, containsSub_nil, strip_accents, pyCasefold]

/-! Claim C9. -/

theorem windows3_append3 {α : Type} (a b c : α) : ∀ l : List α,
    windows3 (l ++ [a, b, c]) = windows3 (l ++ [a, b]) ++ [(a, b, c)]
  | [] => by simp [windows3]
  | [x] => by simp [windows3]
  | [x, y] => by simp [windows3]
  | x :: y :: z :: r => by
    have ih := windows3_append3 a b c (y :: z :: r)
    simp only [List.cons_append] at ih ⊢
    simp only [windows3, ih, List.cons_append]

/-- The sliding-buffer loop of `token_pairs` computes the width-three
windows of the buffer followed by the remaining tokens and two padding
slots. -/
theorem tp_loop_eq : ∀ (rest buf : List (List Char)), buf.length ≤ 3 →
    tp_loop buf rest = windows3 (buf ++ rest ++ [[], []])
  | [], buf, h => by
    match buf with
    | [] => rfl
    | [x] => rfl
    | [x, y] => rfl
    | [x, y, z] => rfl
    | x :: y :: z :: w :: tl => simp at h
  | t :: r, buf, h => by
    match buf with
    | [] =>
      rw [show tp_loop [] (t :: r) = tp_loop [t] r from rfl]
      rw [tp_loop_eq r [t] (by simp)]
      simp
    | [x] =>
      rw [show tp_loop [x] (t :: r) = tp_loop [x, t] r from rfl]
      rw [tp_loop_eq r [x, t] (by simp)]
      simp
    | [x, y] =>
      rw [show tp_loop [x, y] (t :: r) = tp_loop [x, y, t] r from rfl]
      rw [tp_loop_eq r [x, y, t] (by simp)]
      simp
    | [x, y, z] =>
      rw [show tp_loop [x, y, z] (t :: r) = (x, y, z) :: tp_loop [y, z, t] r from rfl]
      rw [tp_loop_eq r [y, z, t] (by simp)]
      simp [windows3]
    | x :: y :: z :: w :: tl => simp at h

/-- Embedding of `token_pairs` is the window decomposition of the token list padded with
a leading `""` and two trailing `""`. -/
theorem token_pairs_eq (toks : List (List Char)) :
    token_pairs toks = windows3 ([[]] ++ toks ++ [[], []]) :=
  tp_loop_eq toks [[]] (by simp)

/-- A trailing pair of windows `(x, "-", "")`, `("-", "", "")` always
contributes exactly one final component: the empty negated component. -/
theorem comps_suffix (tags : List (List Char)) :
    ∀ (l : List TokenWindow) (x : List Char) (skip : Bool),
    get_components_from tags (l ++ [(x, "-".data, []), ("-".data, [], [])]) skip
      = get_components_from tags (l ++ [(x, "-".data, [])]) skip ++ [⟨[], [], [], true⟩]
  | [], x, skip => by
    cases skip <;> simp [get_components_from]
  | (p, tk, nx) :: l, x, skip => by
    have ih := fun sk => comps_suffix tags l x sk
    simp only [List.cons_append, get_components_from]
    cases skip
    · split_ifs <;> simp [ih]
    · simp [ih]

/-- C9: for every query text whose last non-whitespace token is a standalone
`-`, the component extractor emits a trailing component with empty tag name,
empty value and `negated = true`; its compiled predicate is the negation of
an empty-substring match, hence constantly false, so
`GameSearch(text).matches(candidate)` is false for every candidate. -/
theorem query_trailing_dash_matches_nothing (text : List Char)
    (h : (nonwsTokens text).getLast? = some ("-".data)) :
    (get_components gameTags text).getLast? = some ⟨[], [], [], true⟩
    ∧ ∀ (col : GameCollab) (g : DBGame), GameSearch.matches col text g = false := by
  have hne : nonwsTokens text ≠ [] := by
    intro e
    rw [e] at h
    simp at h
  have htext : text ≠ [] := by
    rintro rfl
    exact hne rfl
  obtain ⟨E, hE⟩ : ∃ E, nonwsTokens text = E ++ ["-".data] :=
    ⟨(nonwsTokens text).dropLast,
      (List.dropLast_append_getLast? _ (Option.mem_def.mpr h)).symm⟩
  obtain ⟨F, y, hF⟩ : ∃ (F : List (List Char)) (y : List Char), ([] :: E) = F ++ [y] :=
    ⟨([] :: E).dropLast, ([] :: E).getLast (List.cons_ne_nil _ _),
      (List.dropLast_append_getLast _).symm⟩
  have key : token_pairs (nonwsTokens text)
      = (windows3 (F ++ [y, "-".data]) ++ [(y, "-".data, [])]) ++ [("-".data, [], [])] := by
    rw [token_pairs_eq, hE]
    have h1 : [[]] ++ (E ++ ["-".data]) ++ ([[], []] : List (List Char))
        = ([] :: E) ++ ["-".data, [], []] := by
      simp [List.append_assoc]
    rw [h1, windows3_append3, hF]
    have h3 : (F ++ [y]) ++ (["-".data, []] : List (List Char))
        = F ++ [y, "-".data, []] := by
      simp [List.append_assoc]
    rw [h3, windows3_append3]
  have hcomps : get_components gameTags text
      = get_components_from gameTags
          (windows3 (F ++ [y, "-".data]) ++ [(y, "-".data, [])]) false
        ++ [⟨[], [], [], true⟩] := by
    unfold get_components
    rw [key, List.append_assoc]
    exact comps_suffix gameTags _ y false
  constructor
  · rw [hcomps]
    exact List.getLast?_concat _
  · intro col g
    rw [gameMatches_eq, if_neg htext]
    unfold GameSearch.compile
    rw [hcomps]
    simp [List.map_append, List.all_append, compile_component, get_text_predicate,
      strip_accents, pyCasefold, containsSub_nil]

/-- Witness for C9 at a concrete input. -/
theorem query_trailing_dash_matches_nothing_witness :
    (nonwsTokens ("a-".data)).getLast? = some ("-".data)
    ∧ GameSearch.matches col0 ("a-".data) gCastle = false :=
  ⟨by decide,
    (query_trailing_dash_matches_nothing ("a-".data) (by decide)).2 col0 gCastle⟩

/-- Witness for the amended C3 at a concrete input. -/
theorem quote_span_one_token_witness :
    pyIsSpace ("a".data) = false
    ∧ tokenizeAux ('"' :: "b\"c".data) false ("a".data) =
        ("a".data) :: (if '"' ∈ "b\"c".data then
          ('"' :: ("b\"c".data).takeWhile (fun c => c ≠ '"') ++ ['"'])
            :: tokenizeAux ((("b\"c".data).dropWhile (fun c => c ≠ '"')).drop 1) false []
        else ['"' :: "b\"c".data]) :=
  ⟨by decide, quote_span_one_token ("b\"c".data) ("a".data) (by decide)⟩
